import Mathlib

/-!
Verification of the QuestQuiz backend's Adaptive Assessment and Mastery/Reward
Engine: a shallow embedding of the quiz-delivery route handlers
(`submit-answer`, `adaptive/next`), the progress/mastery update logic, and the
game-state (xp/level/streak/badge) mutation methods, together with theorems
settling the specification's claims about them.

Conventions of the embedding:
* Timestamps are naturals counting milliseconds since the epoch (JS `Date`
  arithmetic `now - last` is millisecond subtraction).
* JS numbers holding scores/mastery/accuracy are embedded as `ℚ` (the code
  only ever forms ratios of small integers); counters are `Nat`.
* `xp` is a `Nat`: it starts at 0 and every award is a nonnegative integer
  (base 50 + `Math.floor(score/10)*10` with `score ∈ [0,100]` + 0 or 20).
* The one call to `Math.random()` (in `getNextQuestion`'s fallback) is
  embedded as an explicit extra argument `rand : Nat`; the source computes
  `Math.floor(Math.random() * len)`, a draw from `0, ..., len-1`, embedded
  here as `rand % len`.
-/

namespace QuestQuiz

/-- Question difficulty, the `difficulty` enum of `questionSchema`. -/
inductive Difficulty where
  | easy
  | medium
  | hard
  deriving DecidableEq, Repr

/-- Question kind, the `type` enum of `questionSchema`. -/
inductive QType where
  | multipleChoice
  | trueFalse
  | shortAnswer
  deriving DecidableEq, Repr

/-- One question of a quiz (`questionSchema`). -/
structure Question where
  questionId : String
  text : String
  qtype : QType
  correctAnswer : String
  topic : String
  difficulty : Difficulty
  explanation : String
  points : Nat
  deriving DecidableEq, Repr

/-- One recorded answer of an attempt (`answerSchema`). -/
structure AnswerRecord where
  questionId : String
  answer : String
  isCorrect : Bool
  timeSpent : Nat
  timestamp : Nat
  deriving DecidableEq, Repr

/-- One quiz attempt (`attemptSchema`). Schema defaults: `score = 0`,
`correctAnswers = 0`, `timeSpent = 0`, `completedAt = null`,
`isCompleted = false`. -/
structure Attempt where
  answers : List AnswerRecord
  score : ℚ
  totalQuestions : Nat
  correctAnswers : Nat
  timeSpent : Nat
  completedAt : Option Nat
  isCompleted : Bool
  deriving DecidableEq, Repr

/-- Per-topic mastery entry of a progress record (`progressSchema.topicMastery`). -/
structure TopicMastery where
  topic : String
  mastery : ℚ
  questionsAnswered : Nat
  correctAnswers : Nat
  deriving DecidableEq, Repr

/-- Per-(student, quiz) progress record (`progressSchema`). -/
structure Progress where
  bestScore : ℚ
  totalAttempts : Nat
  topicMastery : List TopicMastery
  weakTopics : List String
  strongTopics : List String
  deriving DecidableEq, Repr

/-- A quiz (`quizSchema`), restricted to the fields the attempt lifecycle
reads: its questions, `totalQuestions` (kept equal to `questions.length` by the
pre-save hook), `timeLimit` in minutes, and `settings.adaptiveMode`. -/
structure Quiz where
  questions : List Question
  totalQuestions : Nat
  timeLimit : Nat
  adaptiveMode : Bool
  deriving DecidableEq, Repr

/-- Correctness check of `router.post('/submit-answer')`: exact string match
for multiple-choice/true-false, lowercased-and-trimmed match for short answers
(`answer.toLowerCase().trim() === question.correctAnswer.toLowerCase().trim()`). -/
def checkAnswer (question : Question) (answer : String) : Bool :=
  match question.qtype with
  | .multipleChoice => answer == question.correctAnswer
  | .trueFalse => answer == question.correctAnswer
  | .shortAnswer => answer.toLower.trim == question.correctAnswer.toLower.trim

/-- `attempt.answers.find(a => a.questionId === q.questionId)` as a Bool:
whether question `q` already has an answer recorded in the attempt. -/
def answeredInAttempt (attempt : Attempt) (q : Question) : Bool :=
  attempt.answers.any (fun a => a.questionId == q.questionId)

/-- The in-place update of one `topicMastery` entry in
`router.post('/submit-answer')`: increment `questionsAnswered`, increment
`correctAnswers` when correct, and recompute
`mastery = correctAnswers / questionsAnswered * 100`. -/
def updateMasteryEntry (tm : TopicMastery) (isCorrect : Bool) : TopicMastery :=
  let qa := tm.questionsAnswered + 1
  let ca := tm.correctAnswers + (if isCorrect then 1 else 0)
  { tm with
    questionsAnswered := qa,
    correctAnswers := ca,
    mastery := ((ca : ℚ) / (qa : ℚ)) * 100 }

/-- `progress.topicMastery.findIndex(tm => tm.topic === question.topic)`
followed by the in-place update of that entry: the first entry whose topic
matches is replaced by its update, every other entry is kept; when no entry
matches, the list is unchanged. -/
def updateMasteryList (l : List TopicMastery) (topic : String) (isCorrect : Bool) :
    List TopicMastery :=
  match l with
  | [] => []
  | tm :: rest =>
    if tm.topic == topic then updateMasteryEntry tm isCorrect :: rest
    else tm :: updateMasteryList rest topic isCorrect

/-- The mastery-update side effect of `router.post('/submit-answer')` on the
progress record. -/
def updateTopicMastery (progress : Progress) (topic : String) (isCorrect : Bool) :
    Progress :=
  { progress with topicMastery := updateMasteryList progress.topicMastery topic isCorrect }

/-- The completion-branch progress finalization of
`router.post('/submit-answer')`: raise `bestScore` when beaten, and recompute
`weakTopics` (entries with `mastery < 70 && questionsAnswered > 0`) and
`strongTopics` (entries with `mastery >= 80 && questionsAnswered > 0`). -/
def finalizeProgress (progress : Progress) (score : ℚ) : Progress :=
  { progress with
    bestScore := if progress.bestScore < score then score else progress.bestScore,
    weakTopics := (progress.topicMastery.filter
      (fun tm => decide (tm.mastery < 70) && decide (0 < tm.questionsAnswered))).map
        (fun tm => tm.topic),
    strongTopics := (progress.topicMastery.filter
      (fun tm => decide (80 ≤ tm.mastery) && decide (0 < tm.questionsAnswered))).map
        (fun tm => tm.topic) }

/-- Helper `getNextQuestion(quiz, attempt, progress)` of the quiz routes.
The source first serves the lowest-index unanswered question whose topic is in
`progress.weakTopics` (when that list is non-empty and such a question exists),
and otherwise picks `unansweredQuestions[Math.floor(Math.random() * len)]`;
the random draw is the explicit argument `rand`, reduced into range as
`rand % len`. -/
def getNextQuestion (quiz : Quiz) (attempt : Attempt) (progress : Progress)
    (rand : Nat) : Option Question :=
  let weakTopicQuestions := quiz.questions.filter (fun q =>
    progress.weakTopics.contains q.topic && !(answeredInAttempt attempt q))
  if 0 < progress.weakTopics.length ∧ 0 < weakTopicQuestions.length then
    weakTopicQuestions.head?
  else
    let unansweredQuestions := quiz.questions.filter
      (fun q => !(answeredInAttempt attempt q))
    if 0 < unansweredQuestions.length then
      unansweredQuestions[rand % unansweredQuestions.length]?
    else
      none

/-- The response bodies of `router.post('/submit-answer')`. -/
inductive SubmitResponse where
  | completed (score : ℚ) (correctAnswers totalQuestions timeSpent : Nat)
  | nextUp (isCorrect : Bool) (correctAnswer explanation : String)
      (nextQuestion : Option Question) (questionNumber : Nat)
  deriving DecidableEq, Repr

/-- Core of `router.post('/submit-answer')`, after authentication and
ownership checks, acting on the attempt and its progress record.
`none` embeds the 404 `Question not found` response. There is no check that
`questionId` is not already answered, and none that the attempt is still
in progress: any located question is scored and appended. On reaching
`quiz.totalQuestions` recorded answers the attempt is completed with
`score = correctAnswers / totalQuestions * 100`, `completedAt = now`, and the
progress record is finalized; otherwise `getNextQuestion` picks the next
question (the game-state update of the completion branch is `updateGameState`
below, applied to the returned attempt). -/
def submitAnswer (quiz : Quiz) (attempt : Attempt) (progress : Progress)
    (questionId answer : String) (timeSpent : Nat) (now : Nat) (rand : Nat) :
    Option (Attempt × Progress × SubmitResponse) :=
  match quiz.questions.find? (fun q => q.questionId == questionId) with
  | none => none
  | some question =>
    let isCorrect := checkAnswer question answer
    let answerData : AnswerRecord :=
      { questionId := questionId, answer := answer, isCorrect := isCorrect,
        timeSpent := timeSpent, timestamp := now }
    let attempt1 : Attempt :=
      { attempt with
        answers := attempt.answers ++ [answerData],
        timeSpent := attempt.timeSpent + timeSpent,
        correctAnswers := attempt.correctAnswers + (if isCorrect then 1 else 0) }
    let progress1 := updateTopicMastery progress question.topic isCorrect
    if quiz.totalQuestions ≤ attempt1.answers.length then
      let score : ℚ := ((attempt1.correctAnswers : ℚ) / (quiz.totalQuestions : ℚ)) * 100
      let attempt2 : Attempt :=
        { attempt1 with score := score, isCompleted := true, completedAt := some now }
      let progress2 := finalizeProgress progress1 score
      some (attempt2, progress2,
        .completed score attempt2.correctAnswers quiz.totalQuestions attempt2.timeSpent)
    else
      let nextQuestion := getNextQuestion quiz attempt1 progress1 rand
      some (attempt1, progress1,
        .nextUp isCorrect question.correctAnswer question.explanation nextQuestion
          (attempt1.answers.length + 1))

/-- The difficulty thresholds of `router.get('/adaptive/next/:attemptId')`:
`currentAccuracy >= 0.8` targets hard, `>= 0.6` targets medium, else easy,
where `currentAccuracy = correctAnswers / answeredQuestions`. -/
def targetDifficulty (correctAnswers answeredQuestions : Nat) : Difficulty :=
  let currentAccuracy : ℚ := (correctAnswers : ℚ) / (answeredQuestions : ℚ)
  if 8/10 ≤ currentAccuracy then .hard
  else if 6/10 ≤ currentAccuracy then .medium
  else .easy

/-- Non-error response bodies of `router.get('/adaptive/next/:attemptId')`. -/
inductive AdaptiveNext where
  | question (q : Option Question) (questionNumber : Nat)
  | quizComplete
  deriving DecidableEq, Repr

/-- Core of `router.get('/adaptive/next/:attemptId')` after authentication and
ownership checks. Rejects non-adaptive quizzes; with no answers yet serves the
first question whose difficulty is `easy` (possibly `none` when the quiz has no
easy question, as in the source); otherwise filters unanswered questions at the
threshold-determined difficulty and serves the first, falling back to the first
unanswered question of any difficulty, or `quizComplete` when none remain. -/
def adaptiveNextRoute (quiz : Quiz) (attempt : Attempt) : Except String AdaptiveNext :=
  if !quiz.adaptiveMode then .error "This quiz is not in adaptive mode"
  else
    let answeredQuestions := attempt.answers.length
    if answeredQuestions == 0 then
      .ok (.question (quiz.questions.find? (fun q => q.difficulty == Difficulty.easy)) 1)
    else
      let correctAnswers := (attempt.answers.filter (fun a => a.isCorrect)).length
      let nextDifficulty := targetDifficulty correctAnswers answeredQuestions
      let availableQuestions := quiz.questions.filter (fun q =>
        q.difficulty == nextDifficulty && !(answeredInAttempt attempt q))
      match availableQuestions with
      | q :: _ => .ok (.question (some q) (answeredQuestions + 1))
      | [] =>
        let allRemainingQuestions := quiz.questions.filter
          (fun q => !(answeredInAttempt attempt q))
        match allRemainingQuestions with
        | [] => .ok .quizComplete
        | q :: _ => .ok (.question (some q) (answeredQuestions + 1))

/-- Streak counters of `gameStateSchema.streaks`. Schema defaults:
`current = 0`, `longest = 0`, `lastActivity = Date.now` (the creation instant). -/
structure Streaks where
  current : Nat
  longest : Nat
  lastActivity : Nat
  deriving DecidableEq, Repr

/-- Lifetime statistics of `gameStateSchema.stats`. -/
structure GameStats where
  totalQuizzesCompleted : Nat
  totalQuestionsAnswered : Nat
  totalCorrectAnswers : Nat
  averageAccuracy : ℚ
  totalTimeSpent : Nat
  fastestQuiz : Option Nat
  deriving DecidableEq, Repr

/-- A student's game state (`gameStateSchema`); badges kept by their stable ids. -/
structure GameState where
  xp : Nat
  level : Nat
  streaks : Streaks
  stats : GameStats
  badges : List String
  deriving DecidableEq, Repr

/-- `new GameState({ student })` at time `now`: every field takes its schema
default. -/
def newGameState (now : Nat) : GameState :=
  { xp := 0, level := 1,
    streaks := { current := 0, longest := 0, lastActivity := now },
    stats := { totalQuizzesCompleted := 0, totalQuestionsAnswered := 0,
               totalCorrectAnswers := 0, averageAccuracy := 0,
               totalTimeSpent := 0, fastestQuiz := none },
    badges := [] }

/-- The `while (xp >= xpForNextLevel) { level++; xpForNextLevel += level * 50 }`
loop of `gameStateSchema.methods.calculateLevel`, returning the final
`(level, xpForNextLevel)` pair. -/
def calcLevelAux (xp level xpForNextLevel : Nat) : Nat × Nat :=
  if h : xpForNextLevel ≤ xp then
    calcLevelAux xp (level + 1) (xpForNextLevel + (level + 1) * 50)
  else
    (level, xpForNextLevel)
termination_by xp + 1 - xpForNextLevel
decreasing_by
  simp_wf
  have h50 : 50 ≤ (level + 1) * 50 := Nat.le_mul_of_pos_left 50 (Nat.succ_pos level)
  omega

/-- Return value of `calculateLevel`. -/
structure LevelInfo where
  level : Nat
  xpForCurrentLevel : Nat
  xpForNextLevel : Nat
  progress : ℚ
  deriving DecidableEq, Repr

/-- `gameStateSchema.methods.calculateLevel`: walk the threshold sequence
starting at `(level, xpForNextLevel) = (1, 100)`, each step raising the
requirement by `level * 50`. -/
def calculateLevel (xp : Nat) : LevelInfo :=
  let p := calcLevelAux xp 1 100
  { level := p.1,
    xpForCurrentLevel := p.2 - p.1 * 50,
    xpForNextLevel := p.2,
    progress := (((xp : ℚ) - ((p.2 - p.1 * 50 : Nat) : ℚ)) / (((p.1 * 50 : Nat) : ℚ))) * 100 }

/-- Return value of `addXP` (the level-up event data). -/
structure AddXPResult where
  leveledUp : Bool
  newLevel : Nat
  xpGained : Nat
  totalXP : Nat
  deriving DecidableEq, Repr

/-- `gameStateSchema.methods.addXP`: add the amount to `xp`, recompute the
stored `level` from the new total via `calculateLevel`, and report whether the
recomputed level exceeds the previous stored one. -/
def addXP (gs : GameState) (amount : Nat) : GameState × AddXPResult :=
  let oldLevel := gs.level
  let xp1 := gs.xp + amount
  let levelInfo := calculateLevel xp1
  ({ gs with xp := xp1, level := levelInfo.level },
   { leveledUp := decide (oldLevel < levelInfo.level),
     newLevel := levelInfo.level, xpGained := amount, totalXP := xp1 })

/-- The XP computation of `updateGameState`:
`baseXP = 50`, `accuracyBonus = Math.floor(attempt.score / 10) * 10`,
`speedBonus = attempt.timeSpent < quiz.timeLimit * 30 ? 20 : 0`. -/
def xpGained (attempt : Attempt) (quiz : Quiz) : Nat :=
  let baseXP := 50
  let accuracyBonus := (Int.floor (attempt.score / 10)).toNat * 10
  let speedBonus := if attempt.timeSpent < quiz.timeLimit * 30 then 20 else 0
  baseXP + accuracyBonus + speedBonus

/-- Milliseconds per day, the divisor `1000 * 60 * 60 * 24` of the streak update. -/
def msPerDay : Nat := 86400000

/-- The streak update of `updateGameState`:
`daysDiff = Math.floor((now - lastActivity) / msPerDay)`; `daysDiff === 1`
increments the current streak, `daysDiff > 1` resets it to 1, anything else
leaves it; then `longest` is raised to the current streak when beaten and
`lastActivity` is stamped to `now`. (A `now` earlier than `lastActivity` gives
a negative `daysDiff` in the source, hitting neither branch; truncated `Nat`
subtraction gives 0 here, hitting neither branch as well.) -/
def updateStreak (streaks : Streaks) (now : Nat) : Streaks :=
  let daysDiff := (now - streaks.lastActivity) / msPerDay
  let current :=
    if daysDiff == 1 then streaks.current + 1
    else if 1 < daysDiff then 1
    else streaks.current
  { current := current,
    longest := if streaks.longest < current then current else streaks.longest,
    lastActivity := now }

/-- The lifetime-statistics update of `updateGameState`. The source guard
`!gameState.stats.fastestQuiz` is truthy JS: both `null` and `0` trigger the
replacement. -/
def updateStats (stats : GameStats) (attempt : Attempt) : GameStats :=
  let tq := stats.totalQuizzesCompleted + 1
  let ta := stats.totalQuestionsAnswered + attempt.totalQuestions
  let tc := stats.totalCorrectAnswers + attempt.correctAnswers
  { totalQuizzesCompleted := tq,
    totalQuestionsAnswered := ta,
    totalCorrectAnswers := tc,
    averageAccuracy := ((tc : ℚ) / (ta : ℚ)) * 100,
    totalTimeSpent := stats.totalTimeSpent + attempt.timeSpent / 60,
    fastestQuiz :=
      match stats.fastestQuiz with
      | none => some attempt.timeSpent
      | some f =>
        if f == 0 then some attempt.timeSpent
        else if attempt.timeSpent < f then some attempt.timeSpent
        else some f }

/-- `gameStateSchema.methods.checkBadges`, tracking badge ids: each rule fires
only when its id is not already present, and new ids are appended. -/
def checkBadges (gs : GameState) : GameState × List String :=
  let newBadges :=
    (if gs.stats.totalQuizzesCompleted == 1 && !(gs.badges.contains "first_quiz")
     then ["first_quiz"] else [])
    ++ (if decide (gs.stats.averageAccuracy = 100) && !(gs.badges.contains "perfectionist")
     then ["perfectionist"] else [])
    ++ (if decide (7 ≤ gs.streaks.current) && !(gs.badges.contains "week_warrior")
     then ["week_warrior"] else [])
  ({ gs with badges := gs.badges ++ newBadges }, newBadges)

/-- Helper `updateGameState(userId, attempt, quiz)` of the quiz routes, acting
on the student's found-or-created game state `gs` at time `now`: award
`xpGained` through `addXP`, update lifetime statistics, update the streak, and
evaluate badges. Returns the new state, the level result and the new badges. -/
def updateGameState (gs : GameState) (attempt : Attempt) (quiz : Quiz) (now : Nat) :
    GameState × AddXPResult × List String :=
  let totalXP := xpGained attempt quiz
  let r1 := addXP gs totalXP
  let gs1 := r1.1
  let gs2 := { gs1 with stats := updateStats gs1.stats attempt }
  let gs3 := { gs2 with streaks := updateStreak gs2.streaks now }
  let r3 := checkBadges gs3
  (r3.1, r1.2, r3.2)

/-- The UTC calendar day an epoch-millisecond timestamp falls in. Used to state
the specification's "calendar date" reading of the streak rule. -/
def calendarDay (ms : Nat) : Nat :=
  ms / msPerDay

/-! Concrete inputs used by counterexamples and witnesses. -/

/-- An easy multiple-choice question on topic `T1`. -/
def qA1 : Question :=
  { questionId := "q1", text := "t1", qtype := .multipleChoice,
    correctAnswer := "A", topic := "T1", difficulty := .easy,
    explanation := "e1", points := 5 }

/-- A medium multiple-choice question on topic `T1`. -/
def qA2 : Question :=
  { questionId := "q2", text := "t2", qtype := .multipleChoice,
    correctAnswer := "B", topic := "T1", difficulty := .medium,
    explanation := "e2", points := 10 }

/-- A hard multiple-choice question on topic `T2`. -/
def qA3 : Question :=
  { questionId := "q3", text := "t3", qtype := .multipleChoice,
    correctAnswer := "C", topic := "T2", difficulty := .hard,
    explanation := "e3", points := 15 }

/-- A three-question adaptive quiz (one question per difficulty, two topics). -/
def quizA : Quiz :=
  { questions := [qA1, qA2, qA3],
    totalQuestions := 3, timeLimit := 10, adaptiveMode := true }

/-- A fresh progress record for `quizA` (seeded as the start route seeds it). -/
def progressA : Progress :=
  { bestScore := 0, totalAttempts := 1,
    topicMastery :=
      [ { topic := "T1", mastery := 0, questionsAnswered := 0, correctAnswers := 0 },
        { topic := "T2", mastery := 0, questionsAnswered := 0, correctAnswers := 0 } ],
    weakTopics := [], strongTopics := [] }

/-- An in-progress attempt on `quizA` with two answers, one of them correct. -/
def attemptA : Attempt :=
  { answers :=
      [ { questionId := "q1", answer := "A", isCorrect := true, timeSpent := 5, timestamp := 0 },
        { questionId := "q2", answer := "X", isCorrect := false, timeSpent := 5, timestamp := 1 } ],
    score := 0, totalQuestions := 3, correctAnswers := 1, timeSpent := 10,
    completedAt := none, isCompleted := false }

/-- An in-progress attempt on `quizA` whose only answer is a correct answer
to `q1`. -/
def attemptB : Attempt :=
  { answers :=
      [ { questionId := "q1", answer := "A", isCorrect := true, timeSpent := 5, timestamp := 0 } ],
    score := 0, totalQuestions := 3, correctAnswers := 1, timeSpent := 5,
    completedAt := none, isCompleted := false }

/-- An in-progress attempt on `quizA` whose only answer is an incorrect answer
to `q1` (rolling accuracy 0/1). -/
def attemptC : Attempt :=
  { answers :=
      [ { questionId := "q1", answer := "X", isCorrect := false, timeSpent := 5, timestamp := 0 } ],
    score := 0, totalQuestions := 3, correctAnswers := 0, timeSpent := 5,
    completedAt := none, isCompleted := false }

/-- An attempt on `quizA` with no answers yet. -/
def attemptEmpty : Attempt :=
  { answers := [], score := 0, totalQuestions := 3, correctAnswers := 0,
    timeSpent := 0, completedAt := none, isCompleted := false }

/-- A completed perfect attempt on `quizA`: score 100, 100 seconds spent
(less than half of the 10-minute limit, `100 < 10 * 30`). -/
def attemptDone : Attempt :=
  { answers :=
      [ { questionId := "q1", answer := "A", isCorrect := true, timeSpent := 30, timestamp := 0 },
        { questionId := "q2", answer := "B", isCorrect := true, timeSpent := 30, timestamp := 1 },
        { questionId := "q3", answer := "C", isCorrect := true, timeSpent := 40, timestamp := 2 } ],
    score := 100, totalQuestions := 3, correctAnswers := 3, timeSpent := 100,
    completedAt := some 2, isCompleted := true }

/-- A progress record for `quizA` that currently lists `T2` as a weak topic. -/
def progressW : Progress :=
  { bestScore := 50, totalAttempts := 1,
    topicMastery :=
      [ { topic := "T1", mastery := 100, questionsAnswered := 2, correctAnswers := 2 },
        { topic := "T2", mastery := 0, questionsAnswered := 1, correctAnswers := 0 } ],
    weakTopics := ["T2"], strongTopics := ["T1"] }

/-- The attempt produced by submitting a wrong answer to `q3` on `attemptA`:
three answers recorded, one correct, completed with score `100/3`. -/
def attemptA2 : Attempt :=
  { answers :=
      [ { questionId := "q1", answer := "A", isCorrect := true, timeSpent := 5, timestamp := 0 },
        { questionId := "q2", answer := "X", isCorrect := false, timeSpent := 5, timestamp := 1 },
        { questionId := "q3", answer := "Z", isCorrect := false, timeSpent := 7, timestamp := 999 } ],
    score := 100/3, totalQuestions := 3, correctAnswers := 1, timeSpent := 17,
    completedAt := some 999, isCompleted := true }

/-- The progress record produced alongside `attemptA2`: `T2` answered once,
incorrectly, and classified weak. -/
def progressA2 : Progress :=
  { bestScore := 100/3, totalAttempts := 1,
    topicMastery :=
      [ { topic := "T1", mastery := 0, questionsAnswered := 0, correctAnswers := 0 },
        { topic := "T2", mastery := 0, questionsAnswered := 1, correctAnswers := 0 } ],
    weakTopics := ["T2"], strongTopics := [] }

/-! Helper lemmas. -/

/-- The level reached by the `calculateLevel` loop is at least the starting
level. -/
theorem calcLevelAux_ge (xp level next : Nat) : level ≤ (calcLevelAux xp level next).1 := by
  by_cases hc : next ≤ xp
  · conv_rhs => rw [calcLevelAux]
    rw [dif_pos hc]
    exact Nat.le_trans (Nat.le_succ level)
      (calcLevelAux_ge xp (level + 1) (next + (level + 1) * 50))
  · conv_rhs => rw [calcLevelAux]
    rw [dif_neg hc]
termination_by xp + 1 - next
decreasing_by
  have h50 : 50 ≤ (level + 1) * 50 := Nat.le_mul_of_pos_left 50 (Nat.succ_pos level)
  omega

/-- The level reached by the `calculateLevel` loop is monotone in the xp
argument. -/
theorem calcLevelAux_mono (xp xq level next : Nat) (h : xp ≤ xq) :
    (calcLevelAux xp level next).1 ≤ (calcLevelAux xq level next).1 := by
  by_cases hc : next ≤ xp
  · have hc2 : next ≤ xq := Nat.le_trans hc h
    conv_lhs => rw [calcLevelAux]
    conv_rhs => rw [calcLevelAux]
    rw [dif_pos hc, dif_pos hc2]
    exact calcLevelAux_mono xp xq (level + 1) (next + (level + 1) * 50) h
  · conv_lhs => rw [calcLevelAux]
    rw [dif_neg hc]
    exact calcLevelAux_ge xq level next
termination_by xq + 1 - next
decreasing_by
  have h50 : 50 ≤ (level + 1) * 50 := Nat.le_mul_of_pos_left 50 (Nat.succ_pos level)
  omega

/-! Claims. -/

/-- **C5.** The stored level is a pure, monotonically non-decreasing function
of cumulative xp: `calculateLevel` invoked twice on the same xp returns the
same level, a larger xp never yields a smaller level, and `addXP` recomputes
the stored level from the new xp total (old xp plus the amount) rather than
mutating it independently. -/
theorem level_pure_monotone_recomputed (gs : GameState) (amount xpa xpb : Nat)
    (hab : xpa ≤ xpb) :
    (calculateLevel xpa).level = (calculateLevel xpa).level
  ∧ (calculateLevel xpa).level ≤ (calculateLevel xpb).level
  ∧ (addXP gs amount).1.xp = gs.xp + amount
  ∧ (addXP gs amount).1.level = (calculateLevel ((addXP gs amount).1.xp)).level := by
  refine ⟨rfl, ?_, rfl, rfl⟩
  simp only [calculateLevel]
  exact calcLevelAux_mono xpa xpb 1 100 hab

/-- Witness for C5 at xp values 50 and 170 on a fresh game state. -/
theorem level_pure_monotone_recomputed_witness :
    50 ≤ 170
  ∧ (calculateLevel 50).level ≤ (calculateLevel 170).level
  ∧ (addXP (newGameState 0) 170).1.xp = (newGameState 0).xp + 170 := by
  have h := level_pure_monotone_recomputed (newGameState 0) 170 50 170 (by norm_num)
  exact ⟨by norm_num, h.2.1, h.2.2.1⟩

/-- **C4.** For every completed attempt the awarded experience equals
50 (base) plus `floor(score / 10) * 10` (accuracy bonus) plus 20 when the
attempt's time spent in seconds is strictly below the quiz time limit in
minutes times 30, else 0 — a pure function of (score, timeSpent, timeLimit);
in particular a student at 0 xp scoring 100 within half the time limit gains
170 xp and ends at level 2. -/
theorem xp_reward_formula (a : Attempt) (q : Quiz) (hpos : 0 ≤ a.score) :
    ((xpGained a q : ℤ) =
        50 + Int.floor (a.score / 10) * 10
          + (if a.timeSpent < q.timeLimit * 30 then 20 else 0))
  ∧ (∀ a2 q2, a.score = a2.score → a.timeSpent = a2.timeSpent →
        q.timeLimit = q2.timeLimit → xpGained a q = xpGained a2 q2)
  ∧ (∀ gs now, gs.xp = 0 → a.score = 100 → a.timeSpent < q.timeLimit * 30 →
        (updateGameState gs a q now).1.xp = 170
          ∧ (updateGameState gs a q now).1.level = 2) := by
  refine ⟨?_, ?_, ?_⟩
  · have hf : 0 ≤ Int.floor (a.score / 10) :=
      Int.floor_nonneg.mpr (by positivity)
    simp only [xpGained]
    push_cast [Int.toNat_of_nonneg hf]
    split <;> ring
  · intro a2 q2 hs ht hl
    simp [xpGained, hs, ht, hl]
  · intro gs now h0 hs hfast
    have hxp : xpGained a q = 170 := by
      have hfl : Int.floor ((100 : ℚ) / 10) = 10 := by norm_num
      simp [xpGained, hs, hfl, if_pos hfast]
    have hx : (updateGameState gs a q now).1.xp = gs.xp + xpGained a q := by
      simp [updateGameState, addXP, checkBadges]
    have hl : (updateGameState gs a q now).1.level =
        (calculateLevel (gs.xp + xpGained a q)).level := by
      simp [updateGameState, addXP, checkBadges]
    constructor
    · rw [hx, h0, hxp]
    · rw [hl, h0, hxp]
      show (calcLevelAux 170 1 100).1 = 2
      simp [calcLevelAux]

/-- Witness for C4: the completed perfect attempt `attemptDone` on `quizA`
takes a fresh student from 0 xp to 170 xp and level 2. -/
theorem xp_reward_formula_witness :
    (0 : ℚ) ≤ attemptDone.score
  ∧ (updateGameState (newGameState 0) attemptDone quizA 1000).1.xp = 170
  ∧ (updateGameState (newGameState 0) attemptDone quizA 1000).1.level = 2 := by
  have h := xp_reward_formula attemptDone quizA (by norm_num [attemptDone])
  have h3 := h.2.2 (newGameState 0) 1000 (by norm_num [newGameState])
    (by norm_num [attemptDone]) (by norm_num [attemptDone, quizA])
  exact ⟨by norm_num [attemptDone], h3.1, h3.2⟩

/-- **C6 counterexample.** The streak update does not compare calendar dates:
with last activity at 86,300,000 ms (day 0, 23:58:20 UTC) and completion at
86,500,000 ms (day 1, 00:01:40 UTC) the calendar-day gap is exactly 1, yet
`daysDiff = floor(200000 / 86400000) = 0`, so the current streak stays 3
instead of incrementing to 4 as the claim requires. -/
theorem streak_calendar_cex :
    calendarDay 86500000 - calendarDay 86300000 = 1
  ∧ (updateStreak { current := 3, longest := 3, lastActivity := 86300000 } 86500000).current = 3
  ∧ (updateStreak { current := 3, longest := 3, lastActivity := 86300000 } 86500000).current ≠
      3 + 1 := by
  decide

/-- **C6 (amended).** For every completed attempt, the streak update compares
the completion time to the last recorded activity by elapsed 24-hour periods,
`daysDiff = floor((now - lastActivity) / 86400000)` (not by calendar dates): a
difference of exactly 1 increments the current streak by 1, more than 1 resets
it to 1, a difference of 0 leaves it unchanged; the longest streak is then set
to `max(longest, current)` and `lastActivity` is stamped to the completion
time; `updateGameState` applies exactly this update to the stored streaks. -/
theorem streak_update_rule (gs : GameState) (a : Attempt) (q : Quiz)
    (s : Streaks) (now : Nat) :
    ((now - s.lastActivity) / msPerDay = 1 → (updateStreak s now).current = s.current + 1)
  ∧ (1 < (now - s.lastActivity) / msPerDay → (updateStreak s now).current = 1)
  ∧ ((now - s.lastActivity) / msPerDay = 0 → (updateStreak s now).current = s.current)
  ∧ (updateStreak s now).longest = max s.longest (updateStreak s now).current
  ∧ (updateStreak s now).lastActivity = now
  ∧ (updateGameState gs a q now).1.streaks = updateStreak gs.streaks now := by
  refine ⟨?_, ?_, ?_, ?_, rfl, rfl⟩
  · intro h
    simp [updateStreak, h]
  · intro h
    have hne : ((now - s.lastActivity) / msPerDay == 1) = false := by
      simp [Nat.ne_of_gt h]
    simp [updateStreak, hne, h]
  · intro h
    simp [updateStreak, h]
  · have hdef : (updateStreak s now).longest =
        if s.longest < (updateStreak s now).current then (updateStreak s now).current
        else s.longest := rfl
    rw [hdef]
    split <;> omega

/-- Witness for the amended C6: a one-day-later completion increments the
streak from 3 to 4, a three-days-later completion resets it to 1. -/
theorem streak_update_rule_witness :
    (86400000 - 0) / msPerDay = 1
  ∧ (updateStreak { current := 3, longest := 3, lastActivity := 0 } 86400000).current = 3 + 1
  ∧ 1 < (259200000 - 0) / msPerDay
  ∧ (updateStreak { current := 3, longest := 5, lastActivity := 0 } 259200000).current = 1 := by
  have h1 := streak_update_rule (newGameState 0) attemptDone quizA
    { current := 3, longest := 3, lastActivity := 0 } 86400000
  have h2 := streak_update_rule (newGameState 0) attemptDone quizA
    { current := 3, longest := 5, lastActivity := 0 } 259200000
  exact ⟨by norm_num [msPerDay], h1.1 (by norm_num [msPerDay]),
    by norm_num [msPerDay], h2.2.1 (by norm_num [msPerDay])⟩

/-- **C10.** For a student whose game state is created at reward time, the
first completed attempt leaves the current streak at 0: `lastActivity`
defaults to the creation instant, the day difference is 0, and neither the
increment branch nor the reset branch fires; moreover (for any state) the
current streak can first become positive only through a completion on a
strictly later UTC calendar day than the recorded last activity. -/
theorem fresh_gamestate_first_completion_streak (c now : Nat) (a : Attempt) (q : Quiz)
    (hcle : c ≤ now) (h2 : now - c < msPerDay) :
    (updateGameState (newGameState c) a q now).1.streaks.current = 0
  ∧ (∀ gs : GameState, gs.streaks.current = 0 →
        0 < (updateStreak gs.streaks now).current →
        calendarDay gs.streaks.lastActivity < calendarDay now) := by
  constructor
  · have hfar : (updateGameState (newGameState c) a q now).1.streaks =
        updateStreak (newGameState c).streaks now := rfl
    rw [hfar]
    have hnow : c ≤ now := hcle
    have hd : (now - c) / msPerDay = 0 := Nat.div_eq_of_lt h2
    simp [updateStreak, newGameState, hd]
  · intro gs h0 hpos
    have hd : 1 ≤ (now - gs.streaks.lastActivity) / msPerDay := by
      rcases Nat.eq_zero_or_pos ((now - gs.streaks.lastActivity) / msPerDay) with h | h
      · exfalso
        simp [updateStreak, h, h0] at hpos
      · exact h
    have hms : msPerDay ≤ now - gs.streaks.lastActivity := by
      have := (Nat.le_div_iff_mul_le (by norm_num [msPerDay] : 0 < msPerDay)).mp hd
      omega
    have hstep : gs.streaks.lastActivity / msPerDay + 1 ≤ now / msPerDay := by
      calc gs.streaks.lastActivity / msPerDay + 1
          = (gs.streaks.lastActivity + msPerDay) / msPerDay :=
            (Nat.add_div_right gs.streaks.lastActivity (by norm_num [msPerDay])).symm
        _ ≤ now / msPerDay := Nat.div_le_div_right (by omega)
    simpa [calendarDay] using hstep

/-- Witness for C10: a game state created 500 ms before its first completion
keeps a current streak of 0. -/
theorem fresh_gamestate_first_completion_streak_witness :
    500 ≤ 1000 ∧ 1000 - 500 < msPerDay
  ∧ (updateGameState (newGameState 500) attemptDone quizA 1000).1.streaks.current = 0 := by
  have h := fresh_gamestate_first_completion_streak 500 1000 attemptDone quizA
    (by norm_num) (by norm_num [msPerDay])
  exact ⟨by norm_num, by norm_num [msPerDay], h.1⟩

/-- **C9 counterexample.** Next-question selection is not deterministic: on
`quizA` with no answers and no weak topics, the fallback serves
`unansweredQuestions[Math.floor(Math.random() * 3)]`, and random draws 0 and 1
yield different questions; draw 1 is also not the first candidate in original
question order. -/
theorem selector_random_cex :
    getNextQuestion quizA attemptEmpty progressA 0 ≠
      getNextQuestion quizA attemptEmpty progressA 1
  ∧ getNextQuestion quizA attemptEmpty progressA 1 ≠
      (quizA.questions.filter (fun q => !(answeredInAttempt attemptEmpty q))).head? := by
  decide

/-- **C9 (amended).** Next-question selection is deterministic only in the
weak-topic branch: when the progress record lists weak topics and an
unanswered question on a weak topic exists, the selector ignores the random
draw and returns the first such candidate in original question order; the
fallback branch depends on the random draw. -/
theorem selector_weak_branch_first (quiz : Quiz) (attempt : Attempt) (progress : Progress)
    (r r2 : Nat) (hw : 0 < progress.weakTopics.length)
    (hq : 0 < (quiz.questions.filter (fun q =>
        progress.weakTopics.contains q.topic && !(answeredInAttempt attempt q))).length) :
    getNextQuestion quiz attempt progress r = getNextQuestion quiz attempt progress r2
  ∧ getNextQuestion quiz attempt progress r =
      (quiz.questions.filter (fun q =>
        progress.weakTopics.contains q.topic && !(answeredInAttempt attempt q))).head? := by
  have h : ∀ s : Nat, getNextQuestion quiz attempt progress s =
      (quiz.questions.filter (fun q =>
        progress.weakTopics.contains q.topic && !(answeredInAttempt attempt q))).head? := by
    intro s
    simp only [getNextQuestion]
    rw [if_pos ⟨hw, hq⟩]
  exact ⟨(h r).trans (h r2).symm, h r⟩

/-- Witness for the amended C9: with `T2` weak, draws 0 and 7 both serve the
first unanswered `T2` question. -/
theorem selector_weak_branch_first_witness :
    0 < progressW.weakTopics.length
  ∧ getNextQuestion quizA attemptEmpty progressW 0 =
      getNextQuestion quizA attemptEmpty progressW 7 := by
  exact ⟨by decide,
    (selector_weak_branch_first quizA attemptEmpty progressW 0 7 (by decide) (by decide)).1⟩

/-- Elimination principle for a successful `submitAnswer` call: how the
returned attempt and progress record relate to the inputs, in both the
completion and the mid-quiz branch. -/
theorem submitAnswer_eq_some (quiz : Quiz) (attempt : Attempt) (progress : Progress)
    (qid ans : String) (ts now rand : Nat) (a2 : Attempt) (p2 : Progress)
    (resp : SubmitResponse) (question : Question)
    (hq : quiz.questions.find? (fun q => q.questionId == qid) = some question)
    (hres : submitAnswer quiz attempt progress qid ans ts now rand = some (a2, p2, resp)) :
    a2.answers = attempt.answers ++
        [{ questionId := qid, answer := ans, isCorrect := checkAnswer question ans,
           timeSpent := ts, timestamp := now }]
  ∧ a2.correctAnswers = attempt.correctAnswers + (if checkAnswer question ans then 1 else 0)
  ∧ a2.timeSpent = attempt.timeSpent + ts
  ∧ p2.topicMastery = updateMasteryList progress.topicMastery question.topic
      (checkAnswer question ans)
  ∧ (quiz.totalQuestions ≤ attempt.answers.length + 1 →
      a2.isCompleted = true ∧ a2.completedAt = some now
        ∧ a2.score = ((a2.correctAnswers : ℚ) / (quiz.totalQuestions : ℚ)) * 100
        ∧ p2.weakTopics = (p2.topicMastery.filter
            (fun tm => decide (tm.mastery < 70) && decide (0 < tm.questionsAnswered))).map
              (fun tm => tm.topic)
        ∧ p2.strongTopics = (p2.topicMastery.filter
            (fun tm => decide (80 ≤ tm.mastery) && decide (0 < tm.questionsAnswered))).map
              (fun tm => tm.topic))
  ∧ (attempt.answers.length + 1 < quiz.totalQuestions →
      a2.isCompleted = attempt.isCompleted ∧ a2.score = attempt.score
        ∧ p2.weakTopics = progress.weakTopics ∧ p2.strongTopics = progress.strongTopics) := by
  simp only [submitAnswer, hq] at hres
  rw [List.length_append] at hres
  split at hres
  case isTrue hc =>
    simp only [Option.some.injEq, Prod.mk.injEq] at hres
    obtain ⟨ha, hp, hr⟩ := hres
    subst ha
    subst hp
    refine ⟨rfl, rfl, rfl, ?_, ?_, ?_⟩
    · simp [finalizeProgress, updateTopicMastery]
    · intro hdone
      refine ⟨rfl, rfl, ?_, ?_, ?_⟩
      · simp [List.length_append]
      · simp [finalizeProgress, updateTopicMastery]
      · simp [finalizeProgress, updateTopicMastery]
    · intro hnot
      exfalso
      simp at hc
      omega
  case isFalse hc =>
    simp only [Option.some.injEq, Prod.mk.injEq] at hres
    obtain ⟨ha, hp, hr⟩ := hres
    subst ha
    subst hp
    refine ⟨rfl, rfl, rfl, ?_, ?_, ?_⟩
    · simp [updateTopicMastery]
    · intro hdone
      exfalso
      simp at hc
      omega
    · intro hnot
      exact ⟨rfl, rfl, rfl, rfl⟩

/-- The first-match `topicMastery` update preserves the invariant that every
entry stores `mastery = correctAnswers / questionsAnswered * 100`. -/
theorem updateMasteryList_invariant (l : List TopicMastery) (topic : String) (c : Bool)
    (hinv : ∀ tm ∈ l,
      tm.mastery = ((tm.correctAnswers : ℚ) / (tm.questionsAnswered : ℚ)) * 100) :
    ∀ tm ∈ updateMasteryList l topic c,
      tm.mastery = ((tm.correctAnswers : ℚ) / (tm.questionsAnswered : ℚ)) * 100 := by
  induction l with
  | nil =>
    intro tm hm
    simp [updateMasteryList] at hm
  | cons hd tl ih =>
    intro tm hm
    rw [updateMasteryList] at hm
    by_cases hb : (hd.topic == topic) = true
    · rw [if_pos hb] at hm
      rcases List.mem_cons.mp hm with h | h
      · subst h
        simp [updateMasteryEntry]
      · exact hinv tm (List.mem_cons_of_mem hd h)
    · rw [if_neg hb] at hm
      rcases List.mem_cons.mp hm with h | h
      · rw [h]
        exact hinv hd (List.mem_cons_self hd tl)
      · exact ih (fun x hx => hinv x (List.mem_cons_of_mem hd hx)) tm h

/-- The first-match `topicMastery` update leaves every entry whose topic is
not the updated one unchanged (pointwise, position by position). -/
theorem updateMasteryList_frame (l : List TopicMastery) (topic : String) (c : Bool) :
    List.Forall₂ (fun tm tm2 => tm.topic ≠ topic → tm2 = tm) l
      (updateMasteryList l topic c) := by
  induction l with
  | nil =>
    simp [updateMasteryList]
  | cons hd tl ih =>
    rw [updateMasteryList]
    by_cases hb : (hd.topic == topic) = true
    · rw [if_pos hb]
      refine List.Forall₂.cons ?_ ?_
      · intro hne
        exact absurd (by simpa using hb) hne
      · exact List.forall₂_same.mpr (fun x hx hne => rfl)
    · rw [if_neg hb]
      exact List.Forall₂.cons (fun hne => rfl) ih

/-- **C1 counterexample.** Submitting the final (incorrect) answer of
`attemptA` on `quizA` completes the attempt with one of three correct, and the
stored score is exactly `100/3`, which differs from
`round(correctAnswers / totalQuestions * 100) = round(100/3) = 33`: the code
stores the unrounded value. -/
theorem score_rounding_cex :
    ((submitAnswer quizA attemptA progressA "q3" "Z" 7 999 0).map
        (fun r => (r.1.isCompleted, r.1.correctAnswers, r.1.score))) =
      some (true, 1, 100/3)
  ∧ ((100 : ℚ) / 3) ≠ ((round (((1 : ℚ) / 3) * 100) : ℤ) : ℚ) := by
  constructor
  · simp [submitAnswer, quizA, qA1, qA2, qA3, attemptA, progressA, checkAnswer,
      updateTopicMastery, updateMasteryList, updateMasteryEntry, finalizeProgress,
      answeredInAttempt, getNextQuestion, List.find?, List.any, List.filter, Option.map]
    norm_num
  · norm_num [round_eq]

/-- **C1 (amended).** For every in-progress attempt, when the number of
answered questions reaches the quiz's total, `submitAnswer` marks the attempt
completed, stamps a completion time, and sets its final score to the exact
(unrounded) value `correctAnswers / totalQuestions * 100`. -/
theorem completion_score_exact (quiz : Quiz) (attempt : Attempt) (progress : Progress)
    (qid ans : String) (ts now rand : Nat) (a2 : Attempt) (p2 : Progress)
    (resp : SubmitResponse) (question : Question)
    (hq : quiz.questions.find? (fun q => q.questionId == qid) = some question)
    (hres : submitAnswer quiz attempt progress qid ans ts now rand = some (a2, p2, resp))
    (hdone : quiz.totalQuestions ≤ attempt.answers.length + 1) :
    a2.answers.length = attempt.answers.length + 1
  ∧ a2.isCompleted = true
  ∧ a2.completedAt = some now
  ∧ a2.score = ((a2.correctAnswers : ℚ) / (quiz.totalQuestions : ℚ)) * 100 := by
  obtain ⟨h1, -, -, -, h5, -⟩ :=
    submitAnswer_eq_some quiz attempt progress qid ans ts now rand a2 p2 resp question hq hres
  obtain ⟨hc1, hc2, hc3, -, -⟩ := h5 hdone
  refine ⟨?_, hc1, hc2, hc3⟩
  rw [h1]
  simp

/-- Witness for the amended C1: the completing call on `attemptA`. -/
theorem completion_score_exact_witness :
    quizA.totalQuestions ≤ attemptA.answers.length + 1
  ∧ attemptA2.isCompleted = true
  ∧ attemptA2.completedAt = some 999
  ∧ attemptA2.score = ((attemptA2.correctAnswers : ℚ) / (quizA.totalQuestions : ℚ)) * 100 := by
  have hres : submitAnswer quizA attemptA progressA "q3" "Z" 7 999 0 =
      some (attemptA2, progressA2, .completed (100/3) 1 3 17) := by
    simp [submitAnswer, quizA, qA1, qA2, qA3, attemptA, progressA, checkAnswer,
      updateTopicMastery, updateMasteryList, updateMasteryEntry, finalizeProgress,
      answeredInAttempt, getNextQuestion, List.find?, List.any, List.filter, Option.map,
      attemptA2, progressA2]
    norm_num
  have h := completion_score_exact quizA attemptA progressA "q3" "Z" 7 999 0
    attemptA2 progressA2 (.completed (100/3) 1 3 17) qA3 (by decide) hres (by decide)
  exact ⟨by decide, h.2.1, h.2.2.1, h.2.2.2⟩

/-- **C2 counterexample.** `attemptB` already contains an answer for `q1`, yet
a second `submitAnswer` call for `q1` succeeds (no `InvalidState` rejection
exists in the code) and changes the attempt: the answer list grows to 2 and
the correct-answer count rises to 2. -/
theorem resubmission_accepted_cex :
    attemptB.answers.length = 1
  ∧ attemptB.correctAnswers = 1
  ∧ (attemptB.answers.any (fun a => a.questionId == "q1")) = true
  ∧ ((submitAnswer quizA attemptB progressA "q1" "A" 5 1000 0).map
        (fun r => (r.1.answers.length, r.1.correctAnswers))) = some (2, 2)
  ∧ (submitAnswer quizA attemptB progressA "q1" "A" 5 1000 0).isSome = true := by
  decide

/-- **C2 (amended).** For every in-progress attempt and every question already
answered in that attempt, a second `submitAnswer` call with the same
`questionId` is accepted like any other answer (the code has no duplicate
check): it appends a second answer record and updates the correct-answer count
and time spent accordingly. -/
theorem resubmission_appends (quiz : Quiz) (attempt : Attempt) (progress : Progress)
    (qid ans : String) (ts now rand : Nat) (question : Question)
    (hq : quiz.questions.find? (fun q => q.questionId == qid) = some question)
    (_halready : (attempt.answers.any (fun a => a.questionId == qid)) = true) :
    ∃ a2 p2 resp,
      submitAnswer quiz attempt progress qid ans ts now rand = some (a2, p2, resp)
      ∧ a2.answers.length = attempt.answers.length + 1
      ∧ a2.correctAnswers = attempt.correctAnswers + (if checkAnswer question ans then 1 else 0)
      ∧ a2.timeSpent = attempt.timeSpent + ts := by
  simp only [submitAnswer, hq]
  split
  · exact ⟨_, _, _, rfl, by simp, rfl, rfl⟩
  · exact ⟨_, _, _, rfl, by simp, rfl, rfl⟩

/-- Witness for the amended C2: resubmitting `q1` on `attemptB` yields an
answer list of length 2. -/
theorem resubmission_appends_witness :
    ((submitAnswer quizA attemptB progressA "q1" "A" 5 1000 0).map
        (fun r => r.1.answers.length)) = some (attemptB.answers.length + 1) := by
  obtain ⟨a2, p2, resp, heq, hlen, -, -⟩ :=
    resubmission_appends quizA attemptB progressA "q1" "A" 5 1000 0 qA1
      (by decide) (by decide)
  rw [heq]
  simp [hlen]

/-- **C8.** After every `submitAnswer` call, every topic entry of the progress
record stores `mastery = correctAnswers / questionsAnswered * 100` computed
from that entry's raw counters (assuming every entry satisfied this before the
call, as seeded entries do: in `ℚ`, `0/0*100 = 0`), and every entry whose
topic differs from the answered question's topic is unchanged. -/
theorem mastery_no_drift (quiz : Quiz) (attempt : Attempt) (progress : Progress)
    (qid ans : String) (ts now rand : Nat) (a2 : Attempt) (p2 : Progress)
    (resp : SubmitResponse) (question : Question)
    (hq : quiz.questions.find? (fun q => q.questionId == qid) = some question)
    (hres : submitAnswer quiz attempt progress qid ans ts now rand = some (a2, p2, resp))
    (hinv : ∀ tm ∈ progress.topicMastery,
      tm.mastery = ((tm.correctAnswers : ℚ) / (tm.questionsAnswered : ℚ)) * 100) :
    (∀ tm ∈ p2.topicMastery,
        tm.mastery = ((tm.correctAnswers : ℚ) / (tm.questionsAnswered : ℚ)) * 100)
  ∧ List.Forall₂ (fun tm tm2 => tm.topic ≠ question.topic → tm2 = tm)
      progress.topicMastery p2.topicMastery := by
  obtain ⟨-, -, -, hpm, -, -⟩ :=
    submitAnswer_eq_some quiz attempt progress qid ans ts now rand a2 p2 resp question hq hres
  rw [hpm]
  exact ⟨updateMasteryList_invariant progress.topicMastery question.topic
      (checkAnswer question ans) hinv,
    updateMasteryList_frame progress.topicMastery question.topic (checkAnswer question ans)⟩

/-- Witness for C8: after a correct answer to `q1` (topic `T1`) from a fresh
state, the `T1` entry stores `1/1*100` and the `T2` entry is untouched. -/
theorem mastery_no_drift_witness :
    ({ topic := "T2", mastery := 0, questionsAnswered := 0, correctAnswers := 0 } :
        TopicMastery) ∈ progressA.topicMastery
  ∧ ((submitAnswer quizA attemptEmpty progressA "q1" "A" 4 10 0).map
        (fun r => r.2.1.topicMastery.length)) = some progressA.topicMastery.length := by
  have hsome : (submitAnswer quizA attemptEmpty progressA "q1" "A" 4 10 0).isSome = true := by
    decide
  obtain ⟨⟨a2, p2, resp⟩, heq⟩ := Option.isSome_iff_exists.mp hsome
  have hinv : ∀ tm ∈ progressA.topicMastery,
      tm.mastery = ((tm.correctAnswers : ℚ) / (tm.questionsAnswered : ℚ)) * 100 := by
    intro tm hm
    simp only [progressA, List.mem_cons, List.not_mem_nil, or_false] at hm
    rcases hm with h | h
    · rw [h]
      norm_num
    · rw [h]
      norm_num
  have h := mastery_no_drift quizA attemptEmpty progressA "q1" "A" 4 10 0
    a2 p2 resp qA1 (by decide) heq hinv
  have hlen := List.Forall₂.length_eq h.2
  refine ⟨by simp [progressA], ?_⟩
  rw [heq]
  simp [hlen]

/-- **C7.** After every attempt completion, the progress record's `weakTopics`
list holds exactly the topics with `mastery < 70` and `questionsAnswered > 0`
and its `strongTopics` list exactly those with `mastery ≥ 80` and
`questionsAnswered > 0`; a topic entry with zero questions answered appears in
neither list, and (topics being pairwise distinct) no topic appears in both
lists simultaneously. -/
theorem weak_strong_classification (quiz : Quiz) (attempt : Attempt) (progress : Progress)
    (qid ans : String) (ts now rand : Nat) (a2 : Attempt) (p2 : Progress)
    (resp : SubmitResponse) (question : Question)
    (hq : quiz.questions.find? (fun q => q.questionId == qid) = some question)
    (hres : submitAnswer quiz attempt progress qid ans ts now rand = some (a2, p2, resp))
    (hdone : quiz.totalQuestions ≤ attempt.answers.length + 1)
    (hnd : (p2.topicMastery.map (fun tm => tm.topic)).Nodup) :
    (∀ t, t ∈ p2.weakTopics ↔ ∃ tm ∈ p2.topicMastery,
        tm.topic = t ∧ tm.mastery < 70 ∧ 0 < tm.questionsAnswered)
  ∧ (∀ t, t ∈ p2.strongTopics ↔ ∃ tm ∈ p2.topicMastery,
        tm.topic = t ∧ 80 ≤ tm.mastery ∧ 0 < tm.questionsAnswered)
  ∧ (∀ tm ∈ p2.topicMastery, tm.questionsAnswered = 0 →
        tm.topic ∉ p2.weakTopics ∧ tm.topic ∉ p2.strongTopics)
  ∧ (∀ t, ¬(t ∈ p2.weakTopics ∧ t ∈ p2.strongTopics)) := by
  obtain ⟨-, -, -, -, h5, -⟩ :=
    submitAnswer_eq_some quiz attempt progress qid ans ts now rand a2 p2 resp question hq hres
  obtain ⟨-, -, -, hw, hs⟩ := h5 hdone
  have hinj : ∀ tm ∈ p2.topicMastery, ∀ tm2 ∈ p2.topicMastery,
      tm.topic = tm2.topic → tm = tm2 := by
    intro x hx y hy hxy
    exact List.inj_on_of_nodup_map hnd hx hy hxy
  have hmemw : ∀ t, t ∈ p2.weakTopics ↔ ∃ tm ∈ p2.topicMastery,
      tm.topic = t ∧ tm.mastery < 70 ∧ 0 < tm.questionsAnswered := by
    intro t
    rw [hw]
    simp only [List.mem_map, List.mem_filter, Bool.and_eq_true, decide_eq_true_eq]
    constructor
    · rintro ⟨tm, ⟨hmem, h1, h2⟩, ht⟩
      exact ⟨tm, hmem, ht, h1, h2⟩
    · rintro ⟨tm, hmem, ht, h1, h2⟩
      exact ⟨tm, ⟨hmem, h1, h2⟩, ht⟩
  have hmems : ∀ t, t ∈ p2.strongTopics ↔ ∃ tm ∈ p2.topicMastery,
      tm.topic = t ∧ 80 ≤ tm.mastery ∧ 0 < tm.questionsAnswered := by
    intro t
    rw [hs]
    simp only [List.mem_map, List.mem_filter, Bool.and_eq_true, decide_eq_true_eq]
    constructor
    · rintro ⟨tm, ⟨hmem, h1, h2⟩, ht⟩
      exact ⟨tm, hmem, ht, h1, h2⟩
    · rintro ⟨tm, hmem, ht, h1, h2⟩
      exact ⟨tm, ⟨hmem, h1, h2⟩, ht⟩
  refine ⟨hmemw, hmems, ?_, ?_⟩
  · intro tm hm h0
    constructor
    · intro hmem
      obtain ⟨tm2, hm2, ht2, -, h2⟩ := (hmemw tm.topic).mp hmem
      have heq : tm2 = tm := hinj tm2 hm2 tm hm ht2
      rw [heq] at h2
      omega
    · intro hmem
      obtain ⟨tm2, hm2, ht2, -, h2⟩ := (hmems tm.topic).mp hmem
      have heq : tm2 = tm := hinj tm2 hm2 tm hm ht2
      rw [heq] at h2
      omega
  · rintro t ⟨hwt, hst⟩
    obtain ⟨tm1, hm1, ht1, hlt, -⟩ := (hmemw t).mp hwt
    obtain ⟨tm2, hm2, ht2, hge, -⟩ := (hmems t).mp hst
    have heq : tm1 = tm2 := hinj tm1 hm1 tm2 hm2 (ht1.trans ht2.symm)
    rw [heq] at hlt
    linarith

/-- Witness for C7: the completed call on `attemptA` yields weak `["T2"]`,
strong `[]`, with distinct topics and `T2` in only one list. -/
theorem weak_strong_classification_witness :
    (progressA2.topicMastery.map (fun tm => tm.topic)).Nodup
  ∧ ¬("T2" ∈ progressA2.weakTopics ∧ "T2" ∈ progressA2.strongTopics) := by
  have hres : submitAnswer quizA attemptA progressA "q3" "Z" 7 999 0 =
      some (attemptA2, progressA2, .completed (100/3) 1 3 17) := by
    simp [submitAnswer, quizA, qA1, qA2, qA3, attemptA, progressA, checkAnswer,
      updateTopicMastery, updateMasteryList, updateMasteryEntry, finalizeProgress,
      answeredInAttempt, getNextQuestion, List.find?, List.any, List.filter, Option.map,
      attemptA2, progressA2]
    norm_num
  have h := weak_strong_classification quizA attemptA progressA "q3" "Z" 7 999 0
    attemptA2 progressA2 (.completed (100/3) 1 3 17) qA3
    (by decide) hres (by decide) (by decide)
  exact ⟨by decide, h.2.2.2 "T2"⟩


/-- With adaptive mode on and at least one answer recorded, the adaptive-next
route reduces to: first unanswered question at the threshold difficulty, else
first unanswered question of any difficulty, else completion. -/
theorem adaptiveNextRoute_spec (quiz : Quiz) (attempt : Attempt)
    (hmode : quiz.adaptiveMode = true) (hans : attempt.answers.length ≠ 0) :
    adaptiveNextRoute quiz attempt =
      match quiz.questions.filter (fun q =>
          q.difficulty == targetDifficulty
            ((attempt.answers.filter (fun a => a.isCorrect)).length) attempt.answers.length
          && !(answeredInAttempt attempt q)) with
      | q :: _ => .ok (.question (some q) (attempt.answers.length + 1))
      | [] =>
        match quiz.questions.filter (fun q => !(answeredInAttempt attempt q)) with
        | [] => .ok .quizComplete
        | q :: _ => .ok (.question (some q) (attempt.answers.length + 1)) := by
  have h0 : (attempt.answers.length == 0) = false := by
    simp [hans]
  simp [adaptiveNextRoute, hmode, h0]

/-- **C3.** For every adaptive-mode quiz and in-progress attempt with at least
one answer, the question served by the adaptive-next selector is an unanswered
quiz question; whenever an unanswered question of the rolling-accuracy target
difficulty (hard at accuracy at least 0.8, medium at least 0.6, easy below)
exists, the served question has exactly that difficulty, so the any-difficulty
fallback is used only when no unanswered question of the target difficulty
remains; in particular accuracy 0/1 targets easy and 2/3 targets medium. -/
theorem adaptive_difficulty_selection (quiz : Quiz) (attempt : Attempt)
    (hmode : quiz.adaptiveMode = true) (hans : attempt.answers.length ≠ 0) :
    (∀ q n, adaptiveNextRoute quiz attempt = .ok (.question (some q) n) →
        q ∈ quiz.questions ∧ answeredInAttempt attempt q = false)
  ∧ ((∃ q ∈ quiz.questions, answeredInAttempt attempt q = false ∧
        q.difficulty = targetDifficulty
          ((attempt.answers.filter (fun a => a.isCorrect)).length) attempt.answers.length) →
      ∃ q, adaptiveNextRoute quiz attempt =
          .ok (.question (some q) (attempt.answers.length + 1))
        ∧ q.difficulty = targetDifficulty
            ((attempt.answers.filter (fun a => a.isCorrect)).length) attempt.answers.length
        ∧ answeredInAttempt attempt q = false)
  ∧ targetDifficulty 0 1 = .easy
  ∧ targetDifficulty 2 3 = .medium := by
  have hspec := adaptiveNextRoute_spec quiz attempt hmode hans
  refine ⟨?_, ?_, ?_, ?_⟩
  · intro q n hq
    rw [hspec] at hq
    cases hA : quiz.questions.filter (fun qq =>
        qq.difficulty == targetDifficulty
          ((attempt.answers.filter (fun a => a.isCorrect)).length) attempt.answers.length
        && !(answeredInAttempt attempt qq)) with
    | cons q0 rest =>
      rw [hA] at hq
      simp only [Except.ok.injEq, AdaptiveNext.question.injEq, Option.some.injEq] at hq
      obtain ⟨hq0, -⟩ := hq
      subst hq0
      have hm : q0 ∈ quiz.questions.filter (fun qq =>
          qq.difficulty == targetDifficulty
            ((attempt.answers.filter (fun a => a.isCorrect)).length) attempt.answers.length
          && !(answeredInAttempt attempt qq)) := by
        rw [hA]
        exact List.mem_cons_self q0 rest
      obtain ⟨hmem, hp⟩ := List.mem_filter.mp hm
      rw [Bool.and_eq_true] at hp
      exact ⟨hmem, by simpa using hp.2⟩
    | nil =>
      rw [hA] at hq
      cases hR : quiz.questions.filter (fun qq => !(answeredInAttempt attempt qq)) with
      | nil =>
        rw [hR] at hq
        simp at hq
      | cons q1 rest1 =>
        rw [hR] at hq
        simp only [Except.ok.injEq, AdaptiveNext.question.injEq, Option.some.injEq] at hq
        obtain ⟨hq1, -⟩ := hq
        subst hq1
        have hm : q1 ∈ quiz.questions.filter (fun qq => !(answeredInAttempt attempt qq)) := by
          rw [hR]
          exact List.mem_cons_self q1 rest1
        obtain ⟨hmem, hp⟩ := List.mem_filter.mp hm
        exact ⟨hmem, by simpa using hp⟩
  · rintro ⟨q, hqmem, hqun, hqdiff⟩
    have hqf : q ∈ quiz.questions.filter (fun qq =>
        qq.difficulty == targetDifficulty
          ((attempt.answers.filter (fun a => a.isCorrect)).length) attempt.answers.length
        && !(answeredInAttempt attempt qq)) :=
      List.mem_filter.mpr ⟨hqmem, by simp [hqdiff, hqun]⟩
    cases hA : quiz.questions.filter (fun qq =>
        qq.difficulty == targetDifficulty
          ((attempt.answers.filter (fun a => a.isCorrect)).length) attempt.answers.length
        && !(answeredInAttempt attempt qq)) with
    | nil =>
      rw [hA] at hqf
      cases hqf
    | cons q0 rest =>
      have hm : q0 ∈ quiz.questions.filter (fun qq =>
          qq.difficulty == targetDifficulty
            ((attempt.answers.filter (fun a => a.isCorrect)).length) attempt.answers.length
          && !(answeredInAttempt attempt qq)) := by
        rw [hA]
        exact List.mem_cons_self q0 rest
      obtain ⟨hmem, hp⟩ := List.mem_filter.mp hm
      rw [Bool.and_eq_true] at hp
      refine ⟨q0, ?_, by simpa using hp.1, by simpa using hp.2⟩
      rw [hspec, hA]
  · norm_num [targetDifficulty]
  · norm_num [targetDifficulty]

/-- Witness for C3: `quizA` is adaptive, `attemptC` has one (incorrect)
answer, and the threshold instances hold. -/
theorem adaptive_difficulty_selection_witness :
    quizA.adaptiveMode = true ∧ attemptC.answers.length ≠ 0
  ∧ targetDifficulty 0 1 = .easy ∧ targetDifficulty 2 3 = .medium := by
  have h := adaptive_difficulty_selection quizA attemptC (by decide) (by decide)
  exact ⟨by decide, by decide, h.2.2.1, h.2.2.2⟩

end QuestQuiz

